import Mathlib

/-!
Verification of the `bblocks-datacommons-tools` custom-data configuration
manager against its natural-language specification.

The development shallowly embeds the Python modules under
`src/bblocks/datacommons_tools/custom_data/`:

* `schema_tools.py` (`to_camelCase`, `build_stat_var_groups_from_strings`);
* `models.py` (the Config / InputFile / Source / Variable pydantic models and
  their validators, together with an explicit model of the pydantic v2
  serialization and strict parsing semantics these model declarations induce);
* `models/mcf.py` (`MCFNode`, `MCFNodes.add`);
* `data_management.py` (the `CustomDataManager` mutation methods).

Python strings are embedded as `List Char`; character classes (upper, lower,
digit, whitespace) are modelled on the ASCII range, which covers every string
the repository and its tests manipulate.  Python dictionaries are embedded as
association lists in insertion order: an assignment to an existing key keeps
its position, an assignment to a fresh key appends.  Raised Python exceptions
are embedded as `Except` errors; a function that raises before any mutation of
its receiver is embedded as returning an error with the receiver unchanged.
-/

/-- ASCII model of Python `str.isspace` for a single character
(space, tab, newline, carriage return, vertical tab, form feed). -/
def pyIsSpace (c : Char) : Bool :=
  c == ' ' || c == '\t' || c == '\n' || c == '\r' || c == '\x0b' || c == '\x0c'

/-- ASCII model of Python `str.isupper` for a single character. -/
def pyIsUpper (c : Char) : Bool :=
  65 ≤ c.toNat && c.toNat ≤ 90

/-- ASCII model of Python `str.islower` for a single character. -/
def pyIsLower (c : Char) : Bool :=
  97 ≤ c.toNat && c.toNat ≤ 122

/-- ASCII decimal digit, as matched by the regex class `[0-9]`. -/
def pyIsDigit (c : Char) : Bool :=
  48 ≤ c.toNat && c.toNat ≤ 57

/-- A cased (alphabetic) character in the ASCII model; Python `str.title`
treats runs of these as words. -/
def pyIsAlpha (c : Char) : Bool :=
  pyIsUpper c || pyIsLower c

/-- Uppercase a single ASCII character (identity on everything else). -/
def pyToUpper (c : Char) : Char :=
  if pyIsLower c then Char.ofNat (c.toNat - 32) else c

/-- Lowercase a single ASCII character (identity on everything else). -/
def pyToLower (c : Char) : Char :=
  if pyIsUpper c then Char.ofNat (c.toNat + 32) else c

/-- Python `str.lower`. -/
def pyLower (cs : List Char) : List Char := cs.map pyToLower

/-- Strip characters satisfying `p` from both ends, as Python `str.strip`
with an explicit character set does. -/
def pyStripWith (p : Char → Bool) (cs : List Char) : List Char :=
  ((cs.dropWhile p).reverse.dropWhile p).reverse

/-- Python `str.strip()` (no argument): strip whitespace from both ends. -/
def pyStrip (cs : List Char) : List Char := pyStripWith pyIsSpace cs

/-- Python `str.title`, restricted to the ASCII model: the first character of
every run of letters is uppercased, the remaining letters of the run are
lowercased, all other characters are kept.  The boolean argument records
whether the previous character was a letter. -/
def pyTitleAux : Bool → List Char → List Char
  | _, [] => []
  | prevCased, c :: rest =>
    if pyIsAlpha c then
      (if prevCased then pyToLower c else pyToUpper c) :: pyTitleAux true rest
    else
      c :: pyTitleAux false rest

/-- Python `str.title`. -/
def pyTitle (cs : List Char) : List Char := pyTitleAux false cs

/-- Python `str.split(sep)` for a one-character separator: splits at every
occurrence, keeping empty pieces (`"a//b".split("/") == ["a", "", "b"]`,
`"".split("/") == [""]`). -/
def pySplitOn (sep : Char) : List Char → List (List Char)
  | [] => [[]]
  | c :: rest =>
    match pySplitOn sep rest with
    | [] => if c == sep then [[], []] else [[c]]
    | w :: ws => if c == sep then [] :: w :: ws else (c :: w) :: ws

/-- Worker for `reSplitWs`.  The accumulated current token is kept reversed;
the boolean is true while a whitespace run (already flushed) is being
consumed. -/
def reSplitWsAux : List Char → List Char → Bool → List (List Char)
  | [], _, true => [[]]
  | [], cur, false => [cur.reverse]
  | c :: rest, _, true =>
    if pyIsSpace c then reSplitWsAux rest [] true
    else reSplitWsAux rest [c] false
  | c :: rest, cur, false =>
    if pyIsSpace c then cur.reverse :: reSplitWsAux rest [] true
    else reSplitWsAux rest (c :: cur) false

/-- Python `re.split(r"\s+", s)`: split at every maximal whitespace run,
keeping the empty pieces that arise at the ends
(`re.split(r"\s+", " a") == ["", "a"]`, `re.split(r"\s+", "") == [""]`). -/
def reSplitWs (cs : List Char) : List (List Char) :=
  reSplitWsAux cs [] false

/-- Concatenation of a list of lists (kept as an explicit fold so that every
definition in this file reduces in the kernel). -/
def joinL {α : Type} (ls : List (List α)) : List α :=
  ls.foldr (fun a b => a ++ b) []

/-- `re.fullmatch(r"[A-Z0-9]+", seg)` succeeds: nonempty and every character
an uppercase letter or digit. -/
def fullmatchUpperDigit (cs : List Char) : Bool :=
  !cs.isEmpty && cs.all (fun c => pyIsUpper c || pyIsDigit c)

/-- First character is a lowercase letter (Python `seg and seg[0].islower()`). -/
def headIsLower : List Char → Bool
  | [] => false
  | c :: _ => pyIsLower c

/-- The word-joining step of `to_camelCase`: lowercase the whole first word
and title-case each remaining word, concatenating with no separator
(Python `words[0].lower() + "".join(w.title() for w in words[1:])`). -/
def camelJoin : List (List Char) → List Char
  | [] => []
  | w :: ws => pyLower w ++ joinL (ws.map pyTitle)

/-- Embedding of `schema_tools.to_camelCase`: strip the segment, keep it if
it fullmatches `[A-Z0-9]+`, keep it if its first character is lowercase and
it contains no space character, otherwise split on whitespace runs and join
in camel case. -/
def to_camelCase (segment : List Char) : List Char :=
  let seg := pyStrip segment
  if fullmatchUpperDigit seg then seg
  else if headIsLower seg && !seg.contains ' ' then seg
  else camelJoin (reSplitWs seg)

example : to_camelCase "Official Development Assistance".data =
    "officialDevelopmentAssistance".data := by decide

example : to_camelCase "ODA".data = "ODA".data := by decide

example : to_camelCase "DAC1".data = "DAC1".data := by decide

example : to_camelCase "alreadyCamel".data = "alreadyCamel".data := by decide

/-!
## Group-hierarchy builder (`schema_tools.build_stat_var_groups_from_strings`)

The builder reads each StatVar node's `memberOf` path, creates one
`StatVarGroupMCFNode` per not-yet-seen group id, and rewrites the StatVar's
`memberOf` to the id of its deepest group.  Only the fields the builder reads
or writes are carried by the embedded node records.
-/

/-- A StatVar node as seen by the builder: its identifier, human name and the
`memberOf` attribute the builder reads and rewrites (the builder accesses
`memberOf` unconditionally, so it is a required field here). -/
structure StatVar where
  Node : List Char
  name : List Char
  memberOf : List Char
deriving DecidableEq, Repr

/-- A `StatVarGroupMCFNode` as produced by the builder: the `Node` id, the
human-readable `name` and the `specializationOf` parent pointer. -/
structure SVGroup where
  Node : List Char
  name : List Char
  specializationOf : List Char
deriving DecidableEq, Repr

/-- The path cleaning of the builder:
`raw.lstrip("-").strip("/ ")` followed by `[p for p in raw.split("/") if p]`. -/
def cleanParts (memberOf : List Char) : List (List Char) :=
  let raw := pyStripWith (fun c => c == '/' || c == ' ') (memberOf.dropWhile (fun c => c == '-'))
  (pySplitOn '/' raw).filter (fun p => !p.isEmpty)

/-- The group-id stem `root = "dcid: " + groups_namespace + "/g/"` (note the
space after the colon, exactly as in the source). -/
def groupRoot (ns : List Char) : List Char := "dcid: ".data ++ ns ++ "/g/".data

/-- The fixed parent of depth-0 groups, `"dcid: dc/g/Root"` (again with the
space after the colon, as in the source). -/
def rootGroupId : List Char := "dcid: dc/g/Root".data

/-- The inner loop of the builder over one cleaned path.  The list pairs each
raw segment with its camel-case slug; `parent` is the id of the previous
level (`rootGroupId` at depth 0); `seen` is the set of already-created group
ids.  Returns the extended seen set and the group nodes appended for this
path, in creation order.  A seen id creates no node but still serves as the
parent of the next level. -/
def walkPath (root : List Char) :
    List Char → List (List Char × List Char) → List (List Char) →
    List (List Char) × List SVGroup
  | _, [], seen => (seen, [])
  | parent, (nm, slug) :: rest, seen =>
    let gid := root ++ slug
    if gid ∈ seen then
      walkPath root gid rest seen
    else
      let w := walkPath root gid rest (gid :: seen)
      (w.1, ⟨gid, nm, parent⟩ :: w.2)

/-- Processing of a single StatVar node: clean the path, walk it creating
missing groups, and rewrite `memberOf` to the deepest group id (the rewrite
happens whenever the cleaned path is nonempty, whether or not the leaf group
was created by this node). -/
def processSV (root : List Char) (sv : StatVar) (seen : List (List Char)) :
    StatVar × List (List Char) × List SVGroup :=
  let parts := cleanParts sv.memberOf
  let slugs := parts.map to_camelCase
  let w := walkPath root rootGroupId (parts.zip slugs) seen
  (match slugs.getLast? with
   | none => sv
   | some s => { sv with memberOf := root ++ s },
   w.1, w.2)

/-- The outer loop over all StatVar nodes, threading the seen set and
collecting the updated StatVars and the created groups in order. -/
def buildLoop (root : List Char) :
    List StatVar → List (List Char) → List StatVar × List SVGroup
  | [], _ => ([], [])
  | sv :: rest, seen =>
    let p := processSV root sv seen
    let r := buildLoop root rest p.2.1
    (p.1 :: r.1, p.2.2 ++ r.2)

/-- Embedding of `build_stat_var_groups_from_strings`: the first component is
the input StatVars with rewritten `memberOf`, the second the group nodes the
function appends to the collection (`stat_vars.nodes.extend(group_nodes)`). -/
def build_stat_var_groups_from_strings (svs : List StatVar) (ns : List Char) :
    List StatVar × List SVGroup :=
  buildLoop (groupRoot ns) svs []

/-- All group ids that the paths of a StatVar list mention: for every node
and every segment of its cleaned path, the id `root ++ slug(segment)`. -/
def allGroupIds (root : List Char) (svs : List StatVar) : List (List Char) :=
  joinL (svs.map (fun sv => ((cleanParts sv.memberOf).map to_camelCase).map (fun s => root ++ s)))

example :
    (build_stat_var_groups_from_strings
      [⟨"dcid:dummy".data, "TestVar".data, "A/B/C".data⟩] "ns".data).2 =
    [⟨"dcid: ns/g/A".data, "A".data, "dcid: dc/g/Root".data⟩,
     ⟨"dcid: ns/g/B".data, "B".data, "dcid: ns/g/A".data⟩,
     ⟨"dcid: ns/g/C".data, "C".data, "dcid: ns/g/B".data⟩] := by decide

example :
    (build_stat_var_groups_from_strings
      [⟨"dcid:dummy".data, "TestVar".data, "A/B/C".data⟩] "ns".data).1.map StatVar.memberOf =
    ["dcid: ns/g/C".data] := by decide

example :
    ((build_stat_var_groups_from_strings
      [⟨"sv1".data, "V1".data, "X/Y".data⟩, ⟨"sv2".data, "V2".data, "X/Y/Z".data⟩]
      "ns2".data).2.map SVGroup.Node) =
    ["dcid: ns2/g/X".data, "dcid: ns2/g/Y".data, "dcid: ns2/g/Z".data] := by decide

/-- The `memberOf` rewrite applied to one StatVar: if the cleaned path is
nonempty, `memberOf` becomes the id of the deepest group. -/
def rewriteSV (root : List Char) (sv : StatVar) : StatVar :=
  match ((cleanParts sv.memberOf).map to_camelCase).getLast? with
  | none => sv
  | some s => { sv with memberOf := root ++ s }

/-- The group ids mentioned by the path of one StatVar. -/
def svIds (root : List Char) (sv : StatVar) : List (List Char) :=
  ((cleanParts sv.memberOf).map to_camelCase).map (fun s => root ++ s)

theorem mem_joinL {α : Type} (ls : List (List α)) (a : α) :
    a ∈ joinL ls ↔ ∃ l ∈ ls, a ∈ l := by
  induction ls with
  | nil => simp [joinL]
  | cons hd tl ih =>
    simp only [joinL, List.foldr] at ih ⊢
    simp [List.mem_append, ih]

theorem get?_zip_map {α β : Type} (xs : List α) (f : α → β) (k : Nat) :
    (xs.zip (xs.map f)).get? k = (xs.get? k).map (fun x => (x, f x)) := by
  induction xs generalizing k with
  | nil => simp
  | cons hd tl ih =>
    cases k with
    | zero => simp
    | succ n => simpa using ih n

theorem processSV_fst (root : List Char) (sv : StatVar) (seen : List (List Char)) :
    (processSV root sv seen).1 = rewriteSV root sv := rfl

theorem walkPath_groups_spec (root : List Char) (l : List (List Char × List Char)) :
    ∀ (parent : List Char) (seen : List (List Char)) (g : SVGroup),
    g ∈ (walkPath root parent l seen).2 →
    ∃ k nm slug, l.get? k = some (nm, slug) ∧ g.Node = root ++ slug ∧ g.name = nm ∧
      ((k = 0 ∧ g.specializationOf = parent) ∨
       (∃ pnm pslug, k ≠ 0 ∧ l.get? (k - 1) = some (pnm, pslug) ∧
         g.specializationOf = root ++ pslug)) := by
  induction l with
  | nil => intro parent seen g hg; simp [walkPath] at hg
  | cons hd tl ih =>
    intro parent seen g hg
    obtain ⟨nm, slug⟩ := hd
    simp only [walkPath] at hg
    by_cases hmem : root ++ slug ∈ seen
    · simp only [if_pos hmem] at hg
      obtain ⟨k, nm2, slug2, hget, hnode, hname, hrest⟩ := ih (root ++ slug) seen g hg
      refine ⟨k + 1, nm2, slug2, by simpa using hget, hnode, hname, Or.inr ?_⟩
      rcases hrest with ⟨hk0, hspec⟩ | ⟨pnm, pslug, hk0, hget2, hspec⟩
      · subst hk0
        exact ⟨nm, slug, by simp, by simp, hspec⟩
      · refine ⟨pnm, pslug, by simp, ?_, hspec⟩
        have hk1 : k - 1 + 1 = k := Nat.succ_pred_eq_of_pos (Nat.pos_of_ne_zero hk0)
        calc ((nm, slug) :: tl).get? (k + 1 - 1) = tl.get? (k - 1) := by
              rw [Nat.add_sub_cancel, ← hk1]; simp
          _ = some (pnm, pslug) := hget2
    · simp only [if_neg hmem, List.mem_cons] at hg
      rcases hg with hg | hg
      · subst hg
        exact ⟨0, nm, slug, by simp, rfl, rfl, Or.inl ⟨rfl, rfl⟩⟩
      · obtain ⟨k, nm2, slug2, hget, hnode, hname, hrest⟩ :=
          ih (root ++ slug) ((root ++ slug) :: seen) g hg
        refine ⟨k + 1, nm2, slug2, by simpa using hget, hnode, hname, Or.inr ?_⟩
        rcases hrest with ⟨hk0, hspec⟩ | ⟨pnm, pslug, hk0, hget2, hspec⟩
        · subst hk0
          exact ⟨nm, slug, by simp, by simp, hspec⟩
        · refine ⟨pnm, pslug, by simp, ?_, hspec⟩
          have hk1 : k - 1 + 1 = k := Nat.succ_pred_eq_of_pos (Nat.pos_of_ne_zero hk0)
          calc ((nm, slug) :: tl).get? (k + 1 - 1) = tl.get? (k - 1) := by
                rw [Nat.add_sub_cancel, ← hk1]; simp
            _ = some (pnm, pslug) := hget2

theorem walkPath_ids (root : List Char) (l : List (List Char × List Char)) :
    ∀ (parent : List Char) (seen : List (List Char)),
    (((walkPath root parent l seen).2.map SVGroup.Node).Nodup ∧
     (∀ id, id ∈ (walkPath root parent l seen).2.map SVGroup.Node ↔
        (id ∈ l.map (fun p => root ++ p.2) ∧ id ∉ seen)) ∧
     (∀ id, id ∈ (walkPath root parent l seen).1 ↔
        id ∈ l.map (fun p => root ++ p.2) ∨ id ∈ seen)) := by
  induction l with
  | nil => intro parent seen; simp [walkPath]
  | cons hd tl ih =>
    intro parent seen
    obtain ⟨nm, slug⟩ := hd
    simp only [walkPath]
    by_cases hmem : root ++ slug ∈ seen
    · simp only [if_pos hmem]
      obtain ⟨ihn, ihm, ihs⟩ := ih (root ++ slug) seen
      refine ⟨ihn, ?_, ?_⟩
      · intro id
        rw [ihm id]
        simp only [List.map_cons, List.mem_cons]
        constructor
        · rintro ⟨h1, h2⟩; exact ⟨Or.inr h1, h2⟩
        · rintro ⟨h1 | h1, h2⟩
          · subst h1; exact absurd hmem h2
          · exact ⟨h1, h2⟩
      · intro id
        rw [ihs id]
        simp only [List.map_cons, List.mem_cons]
        constructor
        · rintro (h | h)
          · exact Or.inl (Or.inr h)
          · exact Or.inr h
        · rintro ((h | h) | h)
          · subst h; exact Or.inr hmem
          · exact Or.inl h
          · exact Or.inr h
    · simp only [if_neg hmem]
      obtain ⟨ihn, ihm, ihs⟩ := ih (root ++ slug) ((root ++ slug) :: seen)
      refine ⟨?_, ?_, ?_⟩
      · simp only [List.map_cons, List.nodup_cons]
        refine ⟨fun hin => ?_, ihn⟩
        have := (ihm (root ++ slug)).1 hin
        simp at this
      · intro id
        simp only [List.map_cons, List.mem_cons, ihm id]
        constructor
        · rintro (h | ⟨h1, h2⟩)
          · subst h; exact ⟨Or.inl rfl, hmem⟩
          · simp only [List.mem_cons, not_or] at h2
            exact ⟨Or.inr h1, h2.2⟩
        · rintro ⟨h1 | h1, h2⟩
          · exact Or.inl h1
          · by_cases heq : id = root ++ slug
            · exact Or.inl heq
            · refine Or.inr ⟨h1, ?_⟩
              simp only [List.mem_cons, not_or]
              exact ⟨heq, h2⟩
      · intro id
        rw [ihs id]
        simp only [List.map_cons, List.mem_cons]
        constructor
        · rintro (h | (h | h))
          · exact Or.inl (Or.inr h)
          · exact Or.inl (Or.inl h)
          · exact Or.inr h
        · rintro ((h | h) | h)
          · exact Or.inr (Or.inl h)
          · exact Or.inl h
          · exact Or.inr (Or.inr h)

theorem map_snd_zip_map {α β γ : Type} (xs : List α) (f : α → β) (g : β → γ) :
    (xs.zip (xs.map f)).map (fun p => g p.2) = (xs.map f).map g := by
  induction xs with
  | nil => simp
  | cons hd tl ih => simp [ih]

theorem buildLoop_fst (root : List Char) (svs : List StatVar) :
    ∀ seen, (buildLoop root svs seen).1 = svs.map (rewriteSV root) := by
  induction svs with
  | nil => intro seen; simp [buildLoop]
  | cons sv rest ih =>
    intro seen
    simp only [buildLoop, List.map_cons, processSV_fst, ih]

theorem processSV_ids (root : List Char) (sv : StatVar) (seen : List (List Char)) :
    (((processSV root sv seen).2.2.map SVGroup.Node).Nodup ∧
     (∀ id, id ∈ (processSV root sv seen).2.2.map SVGroup.Node ↔
        (id ∈ svIds root sv ∧ id ∉ seen)) ∧
     (∀ id, id ∈ (processSV root sv seen).2.1 ↔ id ∈ svIds root sv ∨ id ∈ seen)) := by
  have h := walkPath_ids root
    ((cleanParts sv.memberOf).zip ((cleanParts sv.memberOf).map to_camelCase))
    rootGroupId seen
  have hmap : (((cleanParts sv.memberOf).zip
      ((cleanParts sv.memberOf).map to_camelCase)).map (fun p => root ++ p.2)) =
      svIds root sv :=
    map_snd_zip_map (cleanParts sv.memberOf) to_camelCase (fun s => root ++ s)
  rw [hmap] at h
  exact h

theorem buildLoop_ids (root : List Char) (svs : List StatVar) :
    ∀ seen,
    (((buildLoop root svs seen).2.map SVGroup.Node).Nodup ∧
     (∀ id, id ∈ (buildLoop root svs seen).2.map SVGroup.Node ↔
        (id ∈ joinL (svs.map (svIds root)) ∧ id ∉ seen))) := by
  induction svs with
  | nil => intro seen; simp [buildLoop, joinL]
  | cons sv rest ih =>
    intro seen
    obtain ⟨pn, pm, ps⟩ := processSV_ids root sv seen
    obtain ⟨rn, rm⟩ := ih (processSV root sv seen).2.1
    have hjoin : ∀ id : List Char,
        id ∈ joinL ((sv :: rest).map (svIds root)) ↔
        id ∈ svIds root sv ∨ id ∈ joinL (rest.map (svIds root)) := by
      intro id
      simp only [List.map_cons, joinL, List.foldr, List.mem_append]
    constructor
    · simp only [buildLoop, List.map_append, List.nodup_append]
      refine ⟨pn, rn, ?_⟩
      intro id hidp hidr
      have h1 := (pm id).1 hidp
      have h2 := (rm id).1 hidr
      have h3 := (ps id).2 (Or.inl h1.1)
      exact h2.2 h3
    · intro id
      simp only [buildLoop, List.map_append, List.mem_append, pm id, rm id, hjoin id, ps id]
      constructor
      · rintro (⟨h1, h2⟩ | ⟨h1, h2⟩)
        · exact ⟨Or.inl h1, h2⟩
        · rw [not_or] at h2
          exact ⟨Or.inr h1, h2.2⟩
      · rintro ⟨h1 | h1, h2⟩
        · exact Or.inl ⟨h1, h2⟩
        · by_cases hsv : id ∈ svIds root sv
          · exact Or.inl ⟨hsv, h2⟩
          · exact Or.inr ⟨h1, by rw [not_or]; exact ⟨hsv, h2⟩⟩

theorem buildLoop_groups_spec (root : List Char) (svs : List StatVar) :
    ∀ (seen : List (List Char)) (g : SVGroup), g ∈ (buildLoop root svs seen).2 →
    ∃ sv, sv ∈ svs ∧ ∃ k part, (cleanParts sv.memberOf).get? k = some part ∧
      g.Node = root ++ to_camelCase part ∧ g.name = part ∧
      ((k = 0 ∧ g.specializationOf = rootGroupId) ∨
       (∃ prev, k ≠ 0 ∧ (cleanParts sv.memberOf).get? (k - 1) = some prev ∧
         g.specializationOf = root ++ to_camelCase prev)) := by
  induction svs with
  | nil => intro seen g hg; simp [buildLoop] at hg
  | cons sv rest ih =>
    intro seen g hg
    simp only [buildLoop, List.mem_append] at hg
    rcases hg with hg | hg
    · have hw := walkPath_groups_spec root
        ((cleanParts sv.memberOf).zip ((cleanParts sv.memberOf).map to_camelCase))
        rootGroupId seen g hg
      obtain ⟨k, nm, slug, hget, hnode, hname, hrest⟩ := hw
      rw [get?_zip_map] at hget
      obtain ⟨part, hpart, hpair⟩ := Option.map_eq_some'.1 hget
      have hnm : part = nm := congrArg Prod.fst hpair
      have hslug : to_camelCase part = slug := congrArg Prod.snd hpair
      refine ⟨sv, List.mem_cons_self sv rest, k, part, hpart, ?_, ?_, ?_⟩
      · rw [hnode, ← hslug]
      · rw [hname, ← hnm]
      · rcases hrest with ⟨hk0, hspec⟩ | ⟨pnm, pslug, hk0, hget2, hspec⟩
        · exact Or.inl ⟨hk0, hspec⟩
        · rw [get?_zip_map] at hget2
          obtain ⟨prev, hprev, hpair2⟩ := Option.map_eq_some'.1 hget2
          have hpslug : to_camelCase prev = pslug := congrArg Prod.snd hpair2
          exact Or.inr ⟨prev, hk0, hprev, by rw [hspec, ← hpslug]⟩
    · obtain ⟨sv2, hsv2, rest2⟩ := ih _ g hg
      exact ⟨sv2, List.mem_cons_of_mem sv hsv2, rest2⟩

/-- **C2** (amended form; the original claim, which omits the `"dcid: "` id
prefix, is refuted in the corresponding counterexample theorem).  For every
collection of StatVar nodes and namespace: (1) every StatVar's `memberOf` is
rewritten by `rewriteSV`, which — as conjunct (3) states — replaces it with
the fully-qualified id `"dcid: " ++ ns ++ "/g/" ++ slug(lastSegment)` of its
deepest (leaf) group when the cleaned path is nonempty; (2) every created
group node has id `"dcid: " ++ ns ++ "/g/" ++ slug(segment)` for a segment of
some StatVar's path, its `name` is the raw segment, and its
`specializationOf` is the fixed root-group id `"dcid: dc/g/Root"` at depth 0
and the id of the immediate parent segment otherwise. -/
theorem build_groups_c2_structure (svs : List StatVar) (ns : List Char) :
    ((build_stat_var_groups_from_strings svs ns).1 = svs.map (rewriteSV (groupRoot ns))) ∧
    (∀ g, g ∈ (build_stat_var_groups_from_strings svs ns).2 →
      ∃ sv, sv ∈ svs ∧ ∃ k part, (cleanParts sv.memberOf).get? k = some part ∧
        g.Node = groupRoot ns ++ to_camelCase part ∧ g.name = part ∧
        ((k = 0 ∧ g.specializationOf = rootGroupId) ∨
         (∃ prev, k ≠ 0 ∧ (cleanParts sv.memberOf).get? (k - 1) = some prev ∧
           g.specializationOf = groupRoot ns ++ to_camelCase prev))) ∧
    (∀ sv lastPart, (cleanParts sv.memberOf).getLast? = some lastPart →
      (rewriteSV (groupRoot ns) sv).memberOf = groupRoot ns ++ to_camelCase lastPart) := by
  refine ⟨buildLoop_fst (groupRoot ns) svs [],
    fun g hg => buildLoop_groups_spec (groupRoot ns) svs [] g hg, ?_⟩
  intro sv lastPart hlast
  unfold rewriteSV
  rw [List.getLast?_map, hlast]
  rfl

/-- **C2** counterexample: for the path `"A/B/C"` and namespace `"ns"` the
builder produces group ids `"dcid: ns/g/A"`, `"dcid: ns/g/B"`,
`"dcid: ns/g/C"` (parents `"dcid: dc/g/Root"`, `"dcid: ns/g/A"`,
`"dcid: ns/g/B"`) and rewrites `memberOf` to `"dcid: ns/g/C"` — not the ids
`ns/g/A`, `ns/g/B`, `ns/g/C` and `memberOf` `ns/g/C` asserted by the claim. -/
theorem build_groups_c2_counterexample :
    ((build_stat_var_groups_from_strings
        [⟨"sv".data, "V".data, "A/B/C".data⟩] "ns".data).2 =
      [⟨"dcid: ns/g/A".data, "A".data, "dcid: dc/g/Root".data⟩,
       ⟨"dcid: ns/g/B".data, "B".data, "dcid: ns/g/A".data⟩,
       ⟨"dcid: ns/g/C".data, "C".data, "dcid: ns/g/B".data⟩]) ∧
    ((build_stat_var_groups_from_strings
        [⟨"sv".data, "V".data, "A/B/C".data⟩] "ns".data).2.map SVGroup.Node ≠
      ["ns/g/A".data, "ns/g/B".data, "ns/g/C".data]) ∧
    ((build_stat_var_groups_from_strings
        [⟨"sv".data, "V".data, "A/B/C".data⟩] "ns".data).1.map StatVar.memberOf ≠
      ["ns/g/C".data]) := by decide

/-- **C2** witness: the general theorem applied to the concrete `"A/B/C"`
StatVar, instantiated at the depth-1 group node. -/
theorem build_groups_c2_witness :
    ∃ sv, sv ∈ [(⟨"sv".data, "V".data, "A/B/C".data⟩ : StatVar)] ∧
      ∃ k part, (cleanParts sv.memberOf).get? k = some part ∧
        (⟨"dcid: ns/g/B".data, "B".data, "dcid: ns/g/A".data⟩ : SVGroup).Node =
          groupRoot "ns".data ++ to_camelCase part ∧
        (⟨"dcid: ns/g/B".data, "B".data, "dcid: ns/g/A".data⟩ : SVGroup).name = part ∧
        ((k = 0 ∧ (⟨"dcid: ns/g/B".data, "B".data, "dcid: ns/g/A".data⟩ :
            SVGroup).specializationOf = rootGroupId) ∨
         (∃ prev, k ≠ 0 ∧ (cleanParts sv.memberOf).get? (k - 1) = some prev ∧
           (⟨"dcid: ns/g/B".data, "B".data, "dcid: ns/g/A".data⟩ :
             SVGroup).specializationOf = groupRoot "ns".data ++ to_camelCase prev)) :=
  (build_groups_c2_structure [⟨"sv".data, "V".data, "A/B/C".data⟩] "ns".data).2.1
    ⟨"dcid: ns/g/B".data, "B".data, "dcid: ns/g/A".data⟩ (by decide)

/-- **C3**: the builder appends exactly one group node per unique
fully-qualified group id: the appended ids are pairwise distinct, an id is
appended exactly when some processed StatVar's path mentions it, and the set
of appended ids is invariant under permutation of the input StatVars. -/
theorem build_groups_c3_dedup (svs : List StatVar) (ns : List Char) :
    (((build_stat_var_groups_from_strings svs ns).2.map SVGroup.Node).Nodup) ∧
    (∀ id, id ∈ (build_stat_var_groups_from_strings svs ns).2.map SVGroup.Node ↔
       id ∈ allGroupIds (groupRoot ns) svs) ∧
    (∀ svs2, List.Perm svs2 svs →
       ∀ id, id ∈ (build_stat_var_groups_from_strings svs2 ns).2.map SVGroup.Node ↔
         id ∈ (build_stat_var_groups_from_strings svs ns).2.map SVGroup.Node) := by
  obtain ⟨hn, hm⟩ := buildLoop_ids (groupRoot ns) svs []
  have hids : allGroupIds (groupRoot ns) svs = joinL (svs.map (svIds (groupRoot ns))) := rfl
  have hmem : ∀ id, id ∈ (build_stat_var_groups_from_strings svs ns).2.map SVGroup.Node ↔
      id ∈ allGroupIds (groupRoot ns) svs := by
    intro id
    rw [build_stat_var_groups_from_strings, hm id, hids]
    simp
  refine ⟨hn, hmem, ?_⟩
  intro svs2 hperm id
  obtain ⟨hn2, hm2⟩ := buildLoop_ids (groupRoot ns) svs2 []
  have hjoin : id ∈ joinL (svs2.map (svIds (groupRoot ns))) ↔
      id ∈ joinL (svs.map (svIds (groupRoot ns))) := by
    rw [mem_joinL, mem_joinL]
    constructor
    · rintro ⟨l, hl, hid⟩
      exact ⟨l, (hperm.map (svIds (groupRoot ns))).mem_iff.1 hl, hid⟩
    · rintro ⟨l, hl, hid⟩
      exact ⟨l, (hperm.map (svIds (groupRoot ns))).mem_iff.2 hl, hid⟩
  rw [build_stat_var_groups_from_strings, hm2 id, hmem id, hids]
  simp [hjoin]

/-- **C3** witness: two StatVars sharing the prefix `X`, processed in both
orders, yield the id `"dcid: ns2/g/X"` exactly once. -/
theorem build_groups_c3_witness :
    ("dcid: ns2/g/X".data ∈
        (build_stat_var_groups_from_strings
          [⟨"sv2".data, "V2".data, "X/Y/Z".data⟩, ⟨"sv1".data, "V1".data, "X/Y".data⟩]
          "ns2".data).2.map SVGroup.Node ↔
      "dcid: ns2/g/X".data ∈
        (build_stat_var_groups_from_strings
          [⟨"sv1".data, "V1".data, "X/Y".data⟩, ⟨"sv2".data, "V2".data, "X/Y/Z".data⟩]
          "ns2".data).2.map SVGroup.Node) :=
  (build_groups_c3_dedup
      [⟨"sv1".data, "V1".data, "X/Y".data⟩, ⟨"sv2".data, "V2".data, "X/Y/Z".data⟩]
      "ns2".data).2.2
    [⟨"sv2".data, "V2".data, "X/Y/Z".data⟩, ⟨"sv1".data, "V1".data, "X/Y".data⟩]
    (List.Perm.swap _ _ _) "dcid: ns2/g/X".data

/-!
## The `to_camelCase` slug transform (claims about its three branches)
-/

/-- The slug transform as the specification words it (no initial strip; the
"no internal whitespace" condition read as: no whitespace character anywhere
— with a lowercase first character the readings that exclude leading
whitespace coincide on any input whose whitespace is strictly internal). -/
def to_camelCase_claimed (segment : List Char) : List Char :=
  if fullmatchUpperDigit segment then segment
  else if headIsLower segment && !segment.any pyIsSpace then segment
  else camelJoin (reSplitWs segment)

/-- **C9** counterexample: on the segment `"a\tb"` — lowercase-initial with an
internal tab — the claim prescribes the split-and-join branch, producing
`"aB"`, but `to_camelCase` only tests for the space character `' '` and
returns the segment unchanged. -/
theorem to_camelCase_c9_counterexample :
    to_camelCase ['a', '\t', 'b'] = ['a', '\t', 'b'] ∧
    to_camelCase_claimed ['a', '\t', 'b'] = ['a', 'B'] ∧
    to_camelCase ['a', '\t', 'b'] ≠ to_camelCase_claimed ['a', '\t', 'b'] := by
  decide

/-- **C9** (amended).  `to_camelCase` first strips surrounding whitespace;
it returns the stripped segment unchanged when it consists entirely of
uppercase letters and digits; returns it unchanged when its first character
is a lowercase letter and it contains no space character `' '` (other
whitespace does not trigger splitting); and otherwise splits it on
whitespace runs, lowercases the first word, title-cases the remaining words,
and concatenates them with no separator. -/
theorem to_camelCase_c9_amended (s : List Char) :
    (fullmatchUpperDigit (pyStrip s) = true → to_camelCase s = pyStrip s) ∧
    (headIsLower (pyStrip s) = true → (pyStrip s).contains ' ' = false →
      to_camelCase s = pyStrip s) ∧
    (fullmatchUpperDigit (pyStrip s) = false →
      (headIsLower (pyStrip s) && !(pyStrip s).contains ' ') = false →
      to_camelCase s = camelJoin (reSplitWs (pyStrip s))) := by
  have heq : to_camelCase s =
      if fullmatchUpperDigit (pyStrip s) then pyStrip s
      else if headIsLower (pyStrip s) && !(pyStrip s).contains ' ' then pyStrip s
      else camelJoin (reSplitWs (pyStrip s)) := rfl
  refine ⟨?_, ?_, ?_⟩
  · intro h1
    rw [heq, if_pos h1]
  · intro h1 h2
    rw [heq]
    by_cases hf : fullmatchUpperDigit (pyStrip s) = true
    · rw [if_pos hf]
    · rw [if_neg hf,
        if_pos (show (headIsLower (pyStrip s) && !(pyStrip s).contains ' ') = true by
          rw [h1, h2]; rfl)]
  · intro h1 h2
    rw [heq, if_neg (by simp [h1]), if_neg (fun hc => by rw [h2] at hc; cases hc)]

/-- **C9** witness: the amended theorem applied to the segment
`"Official Development Assistance"` (third branch). -/
theorem to_camelCase_c9_witness :
    to_camelCase "Official Development Assistance".data =
      "officialDevelopmentAssistance".data := by
  have h := (to_camelCase_c9_amended "Official Development Assistance".data).2.2
    (by decide) (by decide)
  rw [h]
  decide

/-!
## The MCF node collection (`models/mcf.py`)
-/

/-- An MCF node as relevant to the collection operations: the `Node` id, the
required `name` and `typeOf`, and the remaining (optional or extra)
properties collapsed into a key-value list — `MCFNodes.add` looks at none of
these fields. -/
structure MCFNode where
  Node : String
  name : String
  typeOf : String
  props : List (String × String)
deriving DecidableEq, Repr

/-- The node collection of `models/mcf.py`: an ordered list of nodes. -/
structure MCFNodes where
  nodes : List MCFNode
deriving DecidableEq, Repr

/-- Embedding of `MCFNodes.add` (models/mcf.py lines 113-121): the method
takes no `override` parameter, performs no duplicate check, and appends the
node unconditionally (`self.nodes.append(node)`). -/
def MCFNodes.add (ns : MCFNodes) (node : MCFNode) : MCFNodes :=
  { ns with nodes := ns.nodes ++ [node] }

/-- **C4**: evaluating `MCFNodes.add` on a collection that already holds a
node with the same `Node` id succeeds and appends a second copy of the id —
no duplicate-node error is raised (the method has no `override` parameter at
all) and the existing node is not replaced in place. -/
theorem mcfnodes_add_c4_duplicate :
    ((MCFNodes.add ⟨[⟨"dcid:n1", "First", "dcid:T1", []⟩]⟩
        ⟨"dcid:n1", "Second", "dcid:T1", []⟩).nodes.map MCFNode.Node =
      ["dcid:n1", "dcid:n1"]) ∧
    ((MCFNodes.add ⟨[⟨"dcid:n1", "First", "dcid:T1", []⟩]⟩
        ⟨"dcid:n1", "Second", "dcid:T1", []⟩).nodes ≠
      [⟨"dcid:n1", "Second", "dcid:T1", []⟩]) := by
  decide

/-!
## The configuration model (`models.py`)

The pydantic models are embedded as plain structures; URLs are carried as
opaque strings (pydantic's `HttpUrl` syntax checking and normalisation are
orthogonal to every claim treated here).  Dictionaries preserve insertion
order as association lists.
-/

/-- The values of the `data_format` field (`Literal["variablePerColumn",
"variablePerRow"]`), exposed on the wire under the alias `format`. -/
inductive DataFormat where
  | variablePerColumn : DataFormat
  | variablePerRow : DataFormat
deriving DecidableEq, Repr

/-- String value of a `DataFormat` on the wire. -/
def DataFormat.str : DataFormat → String
  | .variablePerColumn => "variablePerColumn"
  | .variablePerRow => "variablePerRow"

/-- `ObservationProperties` (implicit schema only, extra fields forbidden). -/
structure ObservationProperties where
  unit : Option String
  observationPeriod : Option String
  scalingFactor : Option String
  measurementMethod : Option String
deriving DecidableEq, Repr

/-- `ColumnMappings` (explicit schema only, extra fields forbidden); the
Python field `variable` is quoted here because `variable` is reserved in
Lean. -/
structure ColumnMappings where
  «variable» : Option String
  entity : Option String
  date : Option String
  value : Option String
  unit : Option String
  scalingFactor : Option String
  measurementMethod : Option String
  observationPeriod : Option String
deriving DecidableEq, Repr

/-- `InputFile`: the internal field is named `data_format` and carries the
validation alias `format`; `provenance` is the only required field. -/
structure InputFile where
  entityType : Option String
  ignoreColumns : Option (List String)
  provenance : String
  data_format : Option DataFormat
  columnMappings : Option ColumnMappings
  observationProperties : Option ObservationProperties
deriving DecidableEq, Repr

/-- `Variable` (config `variables` section). -/
structure Variable where
  name : Option String
  description : Option String
  searchDescriptions : Option (List String)
  group : Option String
  properties : Option (List (String × String))
deriving DecidableEq, Repr

/-- `Source`: a URL and an insertion-ordered map from provenance name to
provenance URL. -/
structure Source where
  url : String
  provenances : List (String × String)
deriving DecidableEq, Repr

/-- `Config`: the root configuration model; the Python field `variables` is
quoted because `variables` is reserved in Lean. -/
structure Config where
  includeInputSubdirs : Option Bool
  groupStatVarsByProperty : Option Bool
  inputFiles : List (String × InputFile)
  «variables» : Option (List (String × Variable))
  sources : List (String × Source)
deriving DecidableEq, Repr

/-- `using_implicit` of `InputFile.validate_schema_choice`. -/
def usingImplicit (f : InputFile) : Bool :=
  f.entityType.isSome || f.observationProperties.isSome

/-- `using_explicit` of `InputFile.validate_schema_choice`. -/
def usingExplicit (f : InputFile) : Bool :=
  f.columnMappings.isSome || f.data_format == some DataFormat.variablePerRow

/-- The schema choice is admissible: not both implicit and explicit. -/
def schemaChoiceOk (f : InputFile) : Bool :=
  !(usingImplicit f && usingExplicit f)

/-- Embedding of `InputFile.validate_schema_choice`: reject an input file
using both implicit and explicit schema fields. -/
def validate_schema_choice (f : InputFile) : Except String InputFile :=
  if usingImplicit f && usingExplicit f then
    .error "Cannot use both implicit and explicit schema fields."
  else
    .ok f

/-- The per-file validators run while the `inputFiles` field is parsed,
before the `Config`-level model validators. -/
def validateInputFiles : List (String × InputFile) → Except String Unit
  | [] => .ok ()
  | p :: rest =>
    match validate_schema_choice p.2 with
    | .error e => .error e
    | .ok _ => validateInputFiles rest

/-- Python `key.lower().endswith(".csv")`. -/
def csvKeyOk (k : String) : Bool :=
  ".csv".data.isSuffixOf (pyLower k.data)

/-- Embedding of `Config.validate_input_file_keys_are_csv`: the first
non-`.csv` key fails validation with a message naming it. -/
def validate_input_file_keys_are_csv (c : Config) : Except String Config :=
  match (c.inputFiles.map Prod.fst).find? (fun k => !csvKeyOk k) with
  | some k => .error ("Input file key \"" ++ k ++ "\" must be a .csv file name")
  | none => .ok c

/-- The union of the provenance-name sets over all sources
(`known_provenances` in `Config.validate_provenance_in_sources`). -/
def knownProvenances (c : Config) : List String :=
  joinL (c.sources.map (fun s => s.2.provenances.map Prod.fst))

/-- The error message of `Config.validate_provenance_in_sources`, naming the
offending input-file key. -/
def provErrMsg (fileKey prov : String) : String :=
  "Input file \"" ++ fileKey ++ "\" references unknown provenance \"" ++ prov ++ "\"."

/-- Embedding of `Config.validate_provenance_in_sources`: the first input
file whose provenance is not among the known provenance names fails
validation with a message naming the file key. -/
def validate_provenance_in_sources (c : Config) : Except String Config :=
  match c.inputFiles.find? (fun p => !decide (p.2.provenance ∈ knownProvenances c)) with
  | some p => .error (provErrMsg p.1 p.2.provenance)
  | none => .ok c

/-- The full validation pipeline that runs when a `Config` value is
constructed by pydantic (`Config.model_validate` on already-structured
data): nested `InputFile` validators first, then the `Config` model
validators in declaration order. -/
def model_validate_config (c : Config) : Except String Config :=
  match validateInputFiles c.inputFiles with
  | .error e => .error e
  | .ok _ =>
    match validate_input_file_keys_are_csv c with
    | .error e => .error e
    | .ok c2 => validate_provenance_in_sources c2

/-!
## The pydantic wire layer

`Config.validate_config` is `Config.model_validate(self.model_dump())` and
`CustomDataManager.export_config` writes
`self._config.model_dump_json(indent=4, exclude_none=True)`;
`Config.from_json` is `Config.model_validate_json`.  To settle the claims
about these paths the dump and parse semantics that the pydantic v2 model
declarations of `models.py` induce are embedded explicitly:

* dumping uses the *field names* — `model_dump` / `model_dump_json` are
  called without `by_alias=True`, so the `InputFile.data_format` field is
  emitted under the key `"data_format"`, not its alias `"format"`;
* parsing accepts an aliased field *only* under its alias — no model sets
  `populate_by_name` except `Config` (whose own fields have no aliases), so
  `InputFile` accepts `"format"` and treats `"data_format"` as an unknown
  key, which `extra="forbid"` rejects;
* `model_dump()` (python mode, `validate_config`) keeps `None`-valued keys,
  `model_dump_json(exclude_none=True)` (export) omits them; an absent key
  and a null value both parse to `None` for optional fields.

Pydantic aggregates all field errors; here the first error encountered in
declaration order is reported, which is faithful for every property proved
below (the claims never depend on more than whether parsing fails and on
which key is rejected first).
-/

/-- A JSON value. -/
inductive JVal where
  | null : JVal
  | str : String → JVal
  | bool : Bool → JVal
  | arr : List JVal → JVal
  | obj : List (String × JVal) → JVal

/-- Dump an optional string field value (python mode: `None` stays null). -/
def jOptStr : Option String → JVal
  | none => .null
  | some s => .str s

/-- Dump a string list. -/
def jStrList (l : List String) : JVal := .arr (l.map JVal.str)

/-- Dump an optional string list. -/
def jOptStrList : Option (List String) → JVal
  | none => .null
  | some l => jStrList l

/-- Dump an optional boolean. -/
def jOptBool : Option Bool → JVal
  | none => .null
  | some b => .bool b

/-- Dump a string-to-string map. -/
def jStrMap (l : List (String × String)) : JVal :=
  .obj (l.map (fun p => (p.1, JVal.str p.2)))

/-- `ObservationProperties.model_dump()` (python mode: every field, by field
name). -/
def dumpOPFull (o : ObservationProperties) : JVal :=
  .obj [("unit", jOptStr o.unit),
        ("observationPeriod", jOptStr o.observationPeriod),
        ("scalingFactor", jOptStr o.scalingFactor),
        ("measurementMethod", jOptStr o.measurementMethod)]

/-- `ColumnMappings.model_dump()` (python mode). -/
def dumpCMFull (m : ColumnMappings) : JVal :=
  .obj [("variable", jOptStr m.«variable»),
        ("entity", jOptStr m.entity),
        ("date", jOptStr m.date),
        ("value", jOptStr m.value),
        ("unit", jOptStr m.unit),
        ("scalingFactor", jOptStr m.scalingFactor),
        ("measurementMethod", jOptStr m.measurementMethod),
        ("observationPeriod", jOptStr m.observationPeriod)]

/-- `InputFile.model_dump()` (python mode): every field, by field name — in
particular the schema-selection field is emitted under `"data_format"`. -/
def dumpIFFull (f : InputFile) : JVal :=
  .obj [("entityType", jOptStr f.entityType),
        ("ignoreColumns", jOptStrList f.ignoreColumns),
        ("provenance", .str f.provenance),
        ("data_format", match f.data_format with | none => .null | some d => .str d.str),
        ("columnMappings", match f.columnMappings with | none => .null | some m => dumpCMFull m),
        ("observationProperties",
          match f.observationProperties with | none => .null | some o => dumpOPFull o)]

/-- `Variable.model_dump()` (python mode). -/
def dumpVarFull (v : Variable) : JVal :=
  .obj [("name", jOptStr v.name),
        ("description", jOptStr v.description),
        ("searchDescriptions", jOptStrList v.searchDescriptions),
        ("group", jOptStr v.group),
        ("properties", match v.properties with | none => .null | some m => jStrMap m)]

/-- `Source.model_dump()` (python mode). -/
def dumpSourceFull (s : Source) : JVal :=
  .obj [("url", .str s.url), ("provenances", jStrMap s.provenances)]

/-- `Config.model_dump()` (python mode), as fed back into validation by
`Config.validate_config`. -/
def dumpConfigFull (c : Config) : JVal :=
  .obj [("includeInputSubdirs", jOptBool c.includeInputSubdirs),
        ("groupStatVarsByProperty", jOptBool c.groupStatVarsByProperty),
        ("inputFiles", .obj (c.inputFiles.map (fun p => (p.1, dumpIFFull p.2)))),
        ("variables",
          match c.«variables» with
          | none => .null
          | some vs => .obj (vs.map (fun p => (p.1, dumpVarFull p.2)))),
        ("sources", .obj (c.sources.map (fun p => (p.1, dumpSourceFull p.2))))]

/-- Prepend `(key, f v)` when the optional value is present, skip it when it
is `None` — the `exclude_none=True` dump behaviour. -/
def consIfSome {α : Type} (key : String) (x : Option α) (f : α → JVal)
    (rest : List (String × JVal)) : List (String × JVal) :=
  match x with
  | none => rest
  | some v => (key, f v) :: rest

/-- `ObservationProperties.model_dump_json(exclude_none=True)`. -/
def dumpOPJson (o : ObservationProperties) : JVal :=
  .obj (consIfSome "unit" o.unit .str
    (consIfSome "observationPeriod" o.observationPeriod .str
    (consIfSome "scalingFactor" o.scalingFactor .str
    (consIfSome "measurementMethod" o.measurementMethod .str []))))

/-- `ColumnMappings.model_dump_json(exclude_none=True)`. -/
def dumpCMJson (m : ColumnMappings) : JVal :=
  .obj (consIfSome "variable" m.«variable» .str
    (consIfSome "entity" m.entity .str
    (consIfSome "date" m.date .str
    (consIfSome "value" m.value .str
    (consIfSome "unit" m.unit .str
    (consIfSome "scalingFactor" m.scalingFactor .str
    (consIfSome "measurementMethod" m.measurementMethod .str
    (consIfSome "observationPeriod" m.observationPeriod .str []))))))))

/-- The key-value pairs of `InputFile.model_dump_json(exclude_none=True)`:
null fields omitted, keys are the *field names* (`by_alias` is not passed by
`export_config`), so the schema-selection field appears as `"data_format"`. -/
def dumpIFJson (f : InputFile) : List (String × JVal) :=
  consIfSome "entityType" f.entityType .str
    (consIfSome "ignoreColumns" f.ignoreColumns jStrList
    (("provenance", .str f.provenance) ::
    (consIfSome "data_format" f.data_format (fun d => .str d.str)
    (consIfSome "columnMappings" f.columnMappings dumpCMJson
    (consIfSome "observationProperties" f.observationProperties dumpOPJson [])))))

/-- `Variable.model_dump_json(exclude_none=True)`. -/
def dumpVarJson (v : Variable) : JVal :=
  .obj (consIfSome "name" v.name .str
    (consIfSome "description" v.description .str
    (consIfSome "searchDescriptions" v.searchDescriptions jStrList
    (consIfSome "group" v.group .str
    (consIfSome "properties" v.properties jStrMap [])))))

/-- `Source.model_dump_json(exclude_none=True)` (both fields required). -/
def dumpSourceJson (s : Source) : JVal :=
  .obj [("url", .str s.url), ("provenances", jStrMap s.provenances)]

/-- `Config.model_dump_json(exclude_none=True)` — the JSON text written by
`CustomDataManager.export_config` / returned by `config_to_dict`. -/
def dumpConfigJson (c : Config) : JVal :=
  .obj (consIfSome "includeInputSubdirs" c.includeInputSubdirs .bool
    (consIfSome "groupStatVarsByProperty" c.groupStatVarsByProperty .bool
    (("inputFiles", .obj (c.inputFiles.map (fun p => (p.1, .obj (dumpIFJson p.2))))) ::
    (consIfSome "variables" c.«variables»
      (fun vs => .obj (vs.map (fun p => (p.1, dumpVarJson p.2))))
    ([("sources", .obj (c.sources.map (fun p => (p.1, dumpSourceJson p.2))))])))))

/-- The first key of an object that is not an accepted input key — with
`extra="forbid"` pydantic rejects it (`Extra inputs are not permitted`). -/
def findExtraKey (kvs : List (String × JVal)) (allowed : List String) : Option String :=
  (kvs.map Prod.fst).find? (fun k => !allowed.contains k)

/-- Parse an optional string field: missing and null give `None`. -/
def parseOptStr (kvs : List (String × JVal)) (k : String) :
    Except String (Option String) :=
  match kvs.lookup k with
  | none => .ok none
  | some .null => .ok none
  | some (.str s) => .ok (some s)
  | some _ => .error ("Input should be a valid string: " ++ k)

/-- Parse a required string field. -/
def parseReqStr (kvs : List (String × JVal)) (k : String) : Except String String :=
  match kvs.lookup k with
  | some (.str s) => .ok s
  | some _ => .error ("Input should be a valid string: " ++ k)
  | none => .error ("Field required: " ++ k)

/-- Parse an optional boolean field. -/
def parseOptBool (kvs : List (String × JVal)) (k : String) :
    Except String (Option Bool) :=
  match kvs.lookup k with
  | none => .ok none
  | some .null => .ok none
  | some (.bool b) => .ok (some b)
  | some _ => .error ("Input should be a valid boolean: " ++ k)

/-- Parse one JSON value as a string. -/
def parseStrItem (v : JVal) (k : String) : Except String String :=
  match v with
  | .str s => .ok s
  | _ => .error ("Input should be a valid string: " ++ k)

/-- Parse a list of JSON values as strings. -/
def parseStrItems (k : String) : List JVal → Except String (List String)
  | [] => .ok []
  | v :: rest =>
    match parseStrItem v k with
    | .error e => .error e
    | .ok s =>
      match parseStrItems k rest with
      | .error e => .error e
      | .ok l => .ok (s :: l)

/-- Parse an optional list-of-strings field. -/
def parseOptStrList (kvs : List (String × JVal)) (k : String) :
    Except String (Option (List String)) :=
  match kvs.lookup k with
  | none => .ok none
  | some .null => .ok none
  | some (.arr items) =>
    match parseStrItems k items with
    | .error e => .error e
    | .ok l => .ok (some l)
  | some _ => .error ("Input should be a valid list: " ++ k)

/-- Parse an object whose values must all be strings. -/
def parseStrPairs (k : String) : List (String × JVal) → Except String (List (String × String))
  | [] => .ok []
  | (k2, v) :: rest =>
    match parseStrItem v k with
    | .error e => .error e
    | .ok s =>
      match parseStrPairs k rest with
      | .error e => .error e
      | .ok l => .ok ((k2, s) :: l)

/-- Parse an optional string-to-string map field. -/
def parseOptStrMap (kvs : List (String × JVal)) (k : String) :
    Except String (Option (List (String × String))) :=
  match kvs.lookup k with
  | none => .ok none
  | some .null => .ok none
  | some (.obj entries) =>
    match parseStrPairs k entries with
    | .error e => .error e
    | .ok l => .ok (some l)
  | some _ => .error ("Input should be a valid dictionary: " ++ k)

/-- Parse a required string-to-string map field. -/
def parseReqStrMap (kvs : List (String × JVal)) (k : String) :
    Except String (List (String × String)) :=
  match kvs.lookup k with
  | some (.obj entries) => parseStrPairs k entries
  | some _ => .error ("Input should be a valid dictionary: " ++ k)
  | none => .error ("Field required: " ++ k)

/-- Parse the `format` field value
(`Literal["variablePerColumn", "variablePerRow"]`). -/
def parseOptFormat (kvs : List (String × JVal)) (k : String) :
    Except String (Option DataFormat) :=
  match kvs.lookup k with
  | none => .ok none
  | some .null => .ok none
  | some (.str s) =>
    if s = "variablePerColumn" then .ok (some DataFormat.variablePerColumn)
    else if s = "variablePerRow" then .ok (some DataFormat.variablePerRow)
    else .error ("Input should be variablePerColumn or variablePerRow: " ++ k)
  | some _ => .error ("Input should be variablePerColumn or variablePerRow: " ++ k)

/-- `ObservationProperties.model_validate`: strict key set, optional string
fields. -/
def parseOP (v : JVal) : Except String ObservationProperties :=
  match v with
  | .obj kvs =>
    match findExtraKey kvs ["unit", "observationPeriod", "scalingFactor", "measurementMethod"] with
    | some k => .error ("Extra inputs are not permitted: " ++ k)
    | none =>
      match parseOptStr kvs "unit" with
      | .error e => .error e
      | .ok unit =>
        match parseOptStr kvs "observationPeriod" with
        | .error e => .error e
        | .ok op =>
          match parseOptStr kvs "scalingFactor" with
          | .error e => .error e
          | .ok sf =>
            match parseOptStr kvs "measurementMethod" with
            | .error e => .error e
            | .ok mm => .ok ⟨unit, op, sf, mm⟩
  | _ => .error "Input should be a valid dictionary: observationProperties"

/-- `ColumnMappings.model_validate`: strict key set, optional string
fields. -/
def parseCM (v : JVal) : Except String ColumnMappings :=
  match v with
  | .obj kvs =>
    match findExtraKey kvs ["variable", "entity", "date", "value", "unit",
        "scalingFactor", "measurementMethod", "observationPeriod"] with
    | some k => .error ("Extra inputs are not permitted: " ++ k)
    | none =>
      match parseOptStr kvs "variable" with
      | .error e => .error e
      | .ok vr =>
        match parseOptStr kvs "entity" with
        | .error e => .error e
        | .ok en =>
          match parseOptStr kvs "date" with
          | .error e => .error e
          | .ok dt =>
            match parseOptStr kvs "value" with
            | .error e => .error e
            | .ok vl =>
              match parseOptStr kvs "unit" with
              | .error e => .error e
              | .ok un =>
                match parseOptStr kvs "scalingFactor" with
                | .error e => .error e
                | .ok sf =>
                  match parseOptStr kvs "measurementMethod" with
                  | .error e => .error e
                  | .ok mm =>
                    match parseOptStr kvs "observationPeriod" with
                    | .error e => .error e
                    | .ok op => .ok ⟨vr, en, dt, vl, un, sf, mm, op⟩
  | _ => .error "Input should be a valid dictionary: columnMappings"

/-- Parse an optional nested model field. -/
def parseOptNested {α : Type} (kvs : List (String × JVal)) (k : String)
    (f : JVal → Except String α) : Except String (Option α) :=
  match kvs.lookup k with
  | none => .ok none
  | some .null => .ok none
  | some v =>
    match f v with
    | .error e => .error e
    | .ok a => .ok (some a)

/-- `InputFile.model_validate`: the accepted key for the schema-selection
field is the alias `"format"` only (no `populate_by_name` on `InputFile`),
every other field is accepted under its name, unknown keys — including
`"data_format"` — are rejected, and the model validator
`validate_schema_choice` runs at the end. -/
def parseIF (v : JVal) : Except String InputFile :=
  match v with
  | .obj kvs =>
    match findExtraKey kvs ["entityType", "ignoreColumns", "provenance", "format",
        "columnMappings", "observationProperties"] with
    | some k => .error ("Extra inputs are not permitted: " ++ k)
    | none =>
      match parseOptStr kvs "entityType" with
      | .error e => .error e
      | .ok et =>
        match parseOptStrList kvs "ignoreColumns" with
        | .error e => .error e
        | .ok ic =>
          match parseReqStr kvs "provenance" with
          | .error e => .error e
          | .ok pv =>
            match parseOptFormat kvs "format" with
            | .error e => .error e
            | .ok df =>
              match parseOptNested kvs "columnMappings" parseCM with
              | .error e => .error e
              | .ok cm =>
                match parseOptNested kvs "observationProperties" parseOP with
                | .error e => .error e
                | .ok op => validate_schema_choice ⟨et, ic, pv, df, cm, op⟩
  | _ => .error "Input should be a valid dictionary: inputFiles"

/-- `Variable.model_validate`. -/
def parseVar (v : JVal) : Except String Variable :=
  match v with
  | .obj kvs =>
    match findExtraKey kvs ["name", "description", "searchDescriptions", "group",
        "properties"] with
    | some k => .error ("Extra inputs are not permitted: " ++ k)
    | none =>
      match parseOptStr kvs "name" with
      | .error e => .error e
      | .ok nm =>
        match parseOptStr kvs "description" with
        | .error e => .error e
        | .ok ds =>
          match parseOptStrList kvs "searchDescriptions" with
          | .error e => .error e
          | .ok sd =>
            match parseOptStr kvs "group" with
            | .error e => .error e
            | .ok gp =>
              match parseOptStrMap kvs "properties" with
              | .error e => .error e
              | .ok pr => .ok ⟨nm, ds, sd, gp, pr⟩
  | _ => .error "Input should be a valid dictionary: variables"

/-- `Source.model_validate`: required url and provenances map. -/
def parseSource (v : JVal) : Except String Source :=
  match v with
  | .obj kvs =>
    match findExtraKey kvs ["url", "provenances"] with
    | some k => .error ("Extra inputs are not permitted: " ++ k)
    | none =>
      match parseReqStr kvs "url" with
      | .error e => .error e
      | .ok u =>
        match parseReqStrMap kvs "provenances" with
        | .error e => .error e
        | .ok pm => .ok ⟨u, pm⟩
  | _ => .error "Input should be a valid dictionary: sources"

/-- Parse every value of an object with the given parser, keeping keys and
order. -/
def parseObjEntries {α : Type} (f : JVal → Except String α) :
    List (String × JVal) → Except String (List (String × α))
  | [] => .ok []
  | (k, v) :: rest =>
    match f v with
    | .error e => .error e
    | .ok a =>
      match parseObjEntries f rest with
      | .error e => .error e
      | .ok l => .ok ((k, a) :: l)

/-- `Config.model_validate` / `Config.model_validate_json` (the latter is
`Config.from_json`): strict key set, fields parsed in declaration order
(each `InputFile` running its own validators as it is parsed), then the
`Config` model validators. -/
def parseConfig (v : JVal) : Except String Config :=
  match v with
  | .obj kvs =>
    match findExtraKey kvs ["includeInputSubdirs", "groupStatVarsByProperty",
        "inputFiles", "variables", "sources"] with
    | some k => .error ("Extra inputs are not permitted: " ++ k)
    | none =>
      match parseOptBool kvs "includeInputSubdirs" with
      | .error e => .error e
      | .ok iis =>
        match parseOptBool kvs "groupStatVarsByProperty" with
        | .error e => .error e
        | .ok gsv =>
          match kvs.lookup "inputFiles" with
          | none => .error "Field required: inputFiles"
          | some (.obj entries) =>
            match parseObjEntries parseIF entries with
            | .error e => .error e
            | .ok ifs =>
              match
                (match kvs.lookup "variables" with
                 | none => Except.ok Option.none
                 | some .null => Except.ok Option.none
                 | some (.obj ventries) =>
                   match parseObjEntries parseVar ventries with
                   | .error e => .error e
                   | .ok vl => .ok (some vl)
                 | some _ => .error "Input should be a valid dictionary: variables") with
              | .error e => .error e
              | .ok vars =>
                match kvs.lookup "sources" with
                | none => .error "Field required: sources"
                | some (.obj sentries) =>
                  match parseObjEntries parseSource sentries with
                  | .error e => .error e
                  | .ok srcs =>
                    match validate_input_file_keys_are_csv ⟨iis, gsv, ifs, vars, srcs⟩ with
                    | .error e => .error e
                    | .ok c2 => validate_provenance_in_sources c2
                | some _ => .error "Input should be a valid dictionary: sources"
          | some _ => .error "Input should be a valid dictionary: inputFiles"
  | _ => .error "Input should be a valid dictionary: config"

/-- Embedding of `Config.validate_config`:
`Config.model_validate(self.model_dump())` — dump in python mode (field
names, null kept) and re-validate. -/
def validate_config (c : Config) : Except String Config :=
  match parseConfig (dumpConfigFull c) with
  | .error e => .error e
  | .ok c2 => .ok c2

/-- Parsing the python-mode dump of any `InputFile` fails: the dump emits the
field-name key `"data_format"`, which the alias-only strict parser rejects,
whatever the field values are. -/
theorem parseIF_dumpFull (f : InputFile) :
    parseIF (dumpIFFull f) = .error "Extra inputs are not permitted: data_format" := rfl

/-- `validate_config` (dump in python mode, re-validate) fails on every
config that has at least one input file, because each dumped `InputFile`
carries the rejected `"data_format"` key. -/
theorem validate_config_nonempty_error (c : Config) (h : c.inputFiles ≠ []) :
    validate_config c = .error "Extra inputs are not permitted: data_format" := by
  rcases c with ⟨iis, gsv, ifs, vars, srcs⟩
  cases ifs with
  | nil => exact absurd rfl h
  | cons p rest =>
    obtain ⟨k, f⟩ := p
    cases iis <;> cases gsv <;> rfl

theorem validateInputFiles_ok (files : List (String × InputFile))
    (h : ∀ p ∈ files, schemaChoiceOk p.2 = true) :
    validateInputFiles files = .ok () := by
  induction files with
  | nil => rfl
  | cons p rest ih =>
    have hp := h p (List.mem_cons_self p rest)
    have hcond : (usingImplicit p.2 && usingExplicit p.2) = false := by
      unfold schemaChoiceOk at hp
      exact Bool.not_eq_true' .. ▸ hp
    have hok : validate_schema_choice p.2 = .ok p.2 := by
      simp [validate_schema_choice, hcond]
    simp [validateInputFiles, hok, ih (fun q hq => h q (List.mem_cons_of_mem p hq))]

theorem csv_validator_ok (c : Config) (h : ∀ p ∈ c.inputFiles, csvKeyOk p.1 = true) :
    validate_input_file_keys_are_csv c = .ok c := by
  unfold validate_input_file_keys_are_csv
  have hfind : (c.inputFiles.map Prod.fst).find? (fun k => !csvKeyOk k) = none := by
    rw [List.find?_eq_none]
    intro k hk
    obtain ⟨p, hp, hpk⟩ := List.mem_map.1 hk
    simp [← hpk, h p hp]
  rw [hfind]

theorem prov_validator_iff (c : Config) :
    (validate_provenance_in_sources c = .ok c ↔
      ∀ p ∈ c.inputFiles, p.2.provenance ∈ knownProvenances c) ∧
    (∀ e, validate_provenance_in_sources c = .error e →
      ∃ p, p ∈ c.inputFiles ∧ p.2.provenance ∉ knownProvenances c ∧
        e = provErrMsg p.1 p.2.provenance) := by
  constructor
  · constructor
    · intro hok p hp
      by_contra hno
      unfold validate_provenance_in_sources at hok
      rcases hfind : c.inputFiles.find?
          (fun q => !decide (q.2.provenance ∈ knownProvenances c)) with _ | q
      · rw [List.find?_eq_none] at hfind
        have := hfind p hp
        simp at this
        exact hno this
      · rw [hfind] at hok
        cases hok
    · intro hall
      unfold validate_provenance_in_sources
      have hfind : c.inputFiles.find?
          (fun q => !decide (q.2.provenance ∈ knownProvenances c)) = none := by
        rw [List.find?_eq_none]
        intro q hq
        simp [hall q hq]
      rw [hfind]
  · intro e he
    unfold validate_provenance_in_sources at he
    rcases hfind : c.inputFiles.find?
        (fun q => !decide (q.2.provenance ∈ knownProvenances c)) with _ | q
    · rw [hfind] at he
      cases he
    · rw [hfind] at he
      have hqmem := List.mem_of_find?_eq_some hfind
      have hqprop := List.find?_some hfind
      simp at hqprop
      injection he with he2
      exact ⟨q, hqmem, hqprop, he2.symm⟩

/-- **C1**: for every config whose other validation rules hold (all
input-file keys end in `.csv` and no file mixes implicit and explicit schema
fields), the validation pipeline run at construction
(`Config.model_validate`, hence construction from JSON) succeeds exactly
when every input file's provenance is among the provenance names of the
sources, and a failure names the offending input-file key in its message.
By contrast `Config.validate_config` — which round-trips the config through
`model_dump()` — fails on *every* config with at least one input file,
because the dump emits the field name `data_format` while the strict parser
only accepts the alias `format`. -/
theorem config_validation_c1 (c : Config)
    (hcsv : ∀ p ∈ c.inputFiles, csvKeyOk p.1 = true)
    (hschema : ∀ p ∈ c.inputFiles, schemaChoiceOk p.2 = true) :
    (model_validate_config c = .ok c ↔
      ∀ p ∈ c.inputFiles, p.2.provenance ∈ knownProvenances c) ∧
    (∀ e, model_validate_config c = .error e →
      ∃ p, p ∈ c.inputFiles ∧ p.2.provenance ∉ knownProvenances c ∧
        e = provErrMsg p.1 p.2.provenance) ∧
    (c.inputFiles ≠ [] →
      validate_config c = .error "Extra inputs are not permitted: data_format") := by
  have h1 := validateInputFiles_ok c.inputFiles hschema
  have h2 := csv_validator_ok c hcsv
  have h3 := prov_validator_iff c
  have hm : model_validate_config c = validate_provenance_in_sources c := by
    unfold model_validate_config
    rw [h1, h2]
  rw [hm]
  exact ⟨h3.1, h3.2, fun h => validate_config_nonempty_error c h⟩

/-- A concrete valid config: one implicit-schema input file whose provenance
`p1` is registered under source `s1`. -/
def cfgValid : Config :=
  ⟨none, none, [("a.csv", ⟨none, none, "p1", none, none, none⟩)], none,
   [("s1", ⟨"http://src", [("p1", "http://prov")]⟩)]⟩

/-- **C1** witness: on `cfgValid` the construction-time validation succeeds
(its provenance is known) while `validate_config` fails on the
`data_format` key. -/
theorem config_validation_c1_witness :
    model_validate_config cfgValid = .ok cfgValid ∧
    validate_config cfgValid = .error "Extra inputs are not permitted: data_format" := by
  have h := config_validation_c1 cfgValid (by decide) (by decide)
  exact ⟨h.1.mpr (by decide), h.2.2 (by decide)⟩

/-- **C6**: the JSON dump (null fields omitted) of an explicit-schema input
file with `data_format = "variablePerRow"` emits exactly the keys
`provenance` and `data_format` — the schema-selection field appears under
its internal field name `data_format`, not under the on-wire key `format`
required by the external contract. -/
theorem export_format_key_c6 :
    ((dumpIFJson ⟨none, none, "p1", some DataFormat.variablePerRow, none, none⟩).map
        Prod.fst = ["provenance", "data_format"]) ∧
    ("format" ∉ (dumpIFJson ⟨none, none, "p1",
        some DataFormat.variablePerRow, none, none⟩).map Prod.fst) ∧
    ((dumpIFJson ⟨none, none, "p1", some DataFormat.variablePerRow, none, none⟩).lookup
        "data_format" = some (JVal.str "variablePerRow")) :=
  ⟨rfl, by decide, rfl⟩

/-- A concrete valid config whose single input file uses the explicit schema
via `data_format = variablePerRow`. -/
def cfgRow : Config :=
  ⟨none, none, [("b.csv", ⟨none, none, "p1", some DataFormat.variablePerRow, none, none⟩)],
   none, [("s1", ⟨"http://src", [("p1", "http://prov")]⟩)]⟩

/-- **C8**: `cfgRow` passes validation, yet serializing it with null fields
omitted (the `export_config` dump) and re-parsing with the
`Config.from_json` parser fails — the dump writes the field name
`data_format`, which the strict alias-only `InputFile` parser rejects as an
extra key — so the round trip does not return the original config. -/
theorem config_roundtrip_c8 :
    model_validate_config cfgRow = .ok cfgRow ∧
    parseConfig (dumpConfigJson cfgRow) =
      .error "Extra inputs are not permitted: data_format" :=
  ⟨rfl, rfl⟩

/-!
## The configuration manager (`data_management.py`, `dc_config.py`)
-/

/-- The Python exceptions the embedded manager methods raise. -/
inductive PyErr where
  | valueError : String → PyErr
  | typeError : String → PyErr
  | attributeError : String → PyErr
deriving DecidableEq, Repr

/-- Python dict assignment `d[k] = v` on an insertion-ordered association
list: an existing key keeps its position and gets the new value, a fresh key
is appended at the end. -/
def updateAssoc {β : Type} : List (String × β) → String → β → List (String × β)
  | [], k, v => [(k, v)]
  | (k2, v2) :: rest, k, v =>
    if k2 == k then (k2, v) :: rest else (k2, v2) :: updateAssoc rest k v

/-- The `CustomDataManager` state: its `Config`, the node collection of its
MCF file, and the in-memory map from registered file name to tabular data
payload (payloads are opaque to the manager, hence the type parameter). -/
structure Manager (Data : Type) where
  config : Config
  mcfNodes : List MCFNode
  data : List (String × Data)

/-- Embedding of `add_provenance` (identical in
`CustomDataManager.add_provenance`, data_management.py lines 188-240, and
`DCConfigManager.add_provenance`, dc_config.py lines 131-183); it touches
only the config's `sources` map.  Error messages elide the Python quoting.
URL values are carried verbatim (`HttpUrl` parsing is orthogonal to the
claim). -/
def add_provenance (c : Config) (provenance_name provenance_url source_name : String)
    (source_url : Option String) (override : Bool) : Except PyErr Config :=
  match c.sources.lookup source_name with
  | none =>
    match source_url with
    | none =>
      .error (.valueError ("Source " ++ source_name ++
        " not found. Please provide a source URL so the source can be added."))
    | some u =>
      .ok { c with sources :=
        c.sources ++ [(source_name, ⟨u, [(provenance_name, provenance_url)]⟩)] }
  | some src =>
    if (src.provenances.lookup provenance_name).isSome && !override then
      .error (.valueError ("Provenance " ++ provenance_name ++
        " already exists for source " ++ source_name ++ ". Use override=True to overwrite it."))
    else
      .ok { c with sources :=
        (updateAssoc c.sources source_name
          ⟨src.url, updateAssoc src.provenances provenance_name provenance_url⟩) }

theorem lookup_updateAssoc_self {β : Type} (l : List (String × β)) (k : String) (v : β) :
    (updateAssoc l k v).lookup k = some v := by
  induction l with
  | nil => simp [updateAssoc, List.lookup]
  | cons p rest ih =>
    obtain ⟨k2, v2⟩ := p
    by_cases h : k2 = k
    · subst h
      simp [updateAssoc, List.lookup]
    · have hb : (k2 == k) = false := beq_false_of_ne h
      have hb2 : (k == k2) = false := beq_false_of_ne (Ne.symm h)
      simp [updateAssoc, List.lookup, hb, hb2, ih]

theorem lookup_updateAssoc_ne {β : Type} (l : List (String × β)) (k k2 : String) (v : β)
    (h : k2 ≠ k) : (updateAssoc l k v).lookup k2 = l.lookup k2 := by
  induction l with
  | nil =>
    simp [updateAssoc, List.lookup, beq_false_of_ne h]
  | cons p rest ih =>
    obtain ⟨k3, v3⟩ := p
    by_cases h3 : k3 = k
    · subst h3
      simp [updateAssoc, List.lookup, beq_false_of_ne h]
    · simp [updateAssoc, List.lookup, beq_false_of_ne h3, ih]

theorem lookup_append {β : Type} (l l2 : List (String × β)) (k : String) :
    (l ++ l2).lookup k = ((l.lookup k).or (l2.lookup k)) := by
  induction l with
  | nil => simp [List.lookup]
  | cons p rest ih =>
    obtain ⟨k2, v2⟩ := p
    by_cases h : k = k2
    · subst h
      simp [List.lookup]
    · simp [List.lookup, beq_false_of_ne h, ih]

/-- **C7**: `add_provenance` (1) fails when the source is unknown and no
source URL is given; (2) with a URL it creates a new `Source` holding
exactly the one provenance entry; (3) with a known source it fails when the
provenance is already registered there and `override` is false, and
(4) otherwise inserts or overwrites the provenance URL inside that source,
leaving its `url` untouched; (5) in every successful call the URL of every
pre-existing source is unchanged. -/
theorem add_provenance_c7 (c : Config) (pn pu sn : String) (su : Option String)
    (ov : Bool) :
    (c.sources.lookup sn = none → su = none →
      add_provenance c pn pu sn su ov =
        .error (.valueError ("Source " ++ sn ++
          " not found. Please provide a source URL so the source can be added."))) ∧
    (∀ u, c.sources.lookup sn = none → su = some u →
      add_provenance c pn pu sn su ov =
        .ok { c with sources := c.sources ++ [(sn, ⟨u, [(pn, pu)]⟩)] }) ∧
    (∀ src, c.sources.lookup sn = some src →
      (src.provenances.lookup pn).isSome = true → ov = false →
      add_provenance c pn pu sn su ov =
        .error (.valueError ("Provenance " ++ pn ++ " already exists for source " ++
          sn ++ ". Use override=True to overwrite it."))) ∧
    (∀ src, c.sources.lookup sn = some src →
      ((src.provenances.lookup pn).isSome = false ∨ ov = true) →
      add_provenance c pn pu sn su ov =
        .ok { c with sources :=
          (updateAssoc c.sources sn ⟨src.url, updateAssoc src.provenances pn pu⟩) }) ∧
    (∀ c2, add_provenance c pn pu sn su ov = .ok c2 →
      ∀ name src, c.sources.lookup name = some src →
        ∃ src2, c2.sources.lookup name = some src2 ∧ src2.url = src.url) := by
  refine ⟨?_, ?_, ?_, ?_, ?_⟩
  · intro h1 h2
    simp [add_provenance, h1, h2]
  · intro u h1 h2
    simp [add_provenance, h1, h2]
  · intro src h1 h2 h3
    simp [add_provenance, h1, h2, h3]
  · intro src h1 h2
    have hcond : ((src.provenances.lookup pn).isSome && !ov) = false := by
      rcases h2 with h2 | h2
      · simp [h2]
      · simp [h2]
    simp [add_provenance, h1, hcond]
  · intro c2 hok name src hname
    rcases hsn : c.sources.lookup sn with _ | src0
    · rcases hsu : su with _ | u
      · simp [add_provenance, hsn, hsu] at hok
      · simp only [add_provenance, hsn, hsu, Except.ok.injEq] at hok
        subst hok
        refine ⟨src, ?_, rfl⟩
        show List.lookup name (c.sources ++ [(sn, ⟨u, [(pn, pu)]⟩)]) = some src
        rw [lookup_append, hname]
        rfl
    · by_cases hcond : ((src0.provenances.lookup pn).isSome && !ov) = true
      · simp [add_provenance, hsn, hcond] at hok
      · simp only [add_provenance, hsn, if_neg hcond, Except.ok.injEq] at hok
        subst hok
        by_cases hn : name = sn
        · subst hn
          refine ⟨⟨src0.url, updateAssoc src0.provenances pn pu⟩, ?_, ?_⟩
          · show List.lookup name
              (updateAssoc c.sources name ⟨src0.url, updateAssoc src0.provenances pn pu⟩) = _
            exact lookup_updateAssoc_self ..
          · have hss : src = src0 := by
              rw [hname] at hsn
              exact Option.some.inj hsn
            rw [hss]
        · refine ⟨src, ?_, rfl⟩
          show List.lookup name
            (updateAssoc c.sources sn ⟨src0.url, updateAssoc src0.provenances pn pu⟩) = some src
          rw [lookup_updateAssoc_ne _ _ _ _ hn, hname]

/-- **C7** witness: on an empty config, `add_provenance "pA" ... "new_source"`
without a source URL fails, and with `source_url = "http://src"` it creates
the source with the single provenance entry `pA`. -/
theorem add_provenance_c7_witness :
    (add_provenance ⟨none, none, [], none, []⟩ "pA" "http://prov" "new_source" none false =
      .error (.valueError ("Source new_source not found. " ++
        "Please provide a source URL so the source can be added."))) ∧
    (add_provenance ⟨none, none, [], none, []⟩ "pA" "http://prov" "new_source"
        (some "http://src") false =
      .ok ⟨none, none, [], none,
        [("new_source", ⟨"http://src", [("pA", "http://prov")]⟩)]⟩) := by
  constructor
  · have h := (add_provenance_c7 ⟨none, none, [], none, []⟩ "pA" "http://prov"
      "new_source" none false).1 rfl rfl
    rw [h]
    rfl
  · have h := (add_provenance_c7 ⟨none, none, [], none, []⟩ "pA" "http://prov"
      "new_source" (some "http://src") false).2.1 "http://src" rfl rfl
    rw [h]
    rfl

/-- Embedding of `CustomDataManager._data_override_check`
(data_management.py lines 412-419): fail iff tabular data is already
registered for the file name and `override` is false. -/
def _data_override_check {Data : Type} (m : Manager Data) (file_name : String)
    (override : Bool) : Except PyErr Unit :=
  if (m.data.lookup file_name).isSome && !override then
    .error (.valueError ("Data for file " ++ file_name ++
      " already exists. Use a different name or set override as True."))
  else
    .ok ()

/-- `ObservationProperties(**kwargs)`: reject unknown keys (strict model),
fill the four optional fields from the keyword dictionary. -/
def opFromKwargs (kw : List (String × String)) : Except PyErr ObservationProperties :=
  match (kw.map Prod.fst).find? (fun k =>
      !(["unit", "observationPeriod", "scalingFactor", "measurementMethod"].contains k)) with
  | some k => .error (.valueError ("Extra inputs are not permitted: " ++ k))
  | none => .ok ⟨kw.lookup "unit", kw.lookup "observationPeriod",
      kw.lookup "scalingFactor", kw.lookup "measurementMethod"⟩

/-- `ColumnMappings(**kwargs)`: reject unknown keys, fill the eight optional
fields. -/
def cmFromKwargs (kw : List (String × String)) : Except PyErr ColumnMappings :=
  match (kw.map Prod.fst).find? (fun k =>
      !(["variable", "entity", "date", "value", "unit", "scalingFactor",
        "measurementMethod", "observationPeriod"].contains k)) with
  | some k => .error (.valueError ("Extra inputs are not permitted: " ++ k))
  | none => .ok ⟨kw.lookup "variable", kw.lookup "entity", kw.lookup "date",
      kw.lookup "value", kw.lookup "unit", kw.lookup "scalingFactor",
      kw.lookup "measurementMethod", kw.lookup "observationPeriod"⟩

/-- Modelled from the spec: `ImplicitSchemaFile` — the module
`custom_data/models/data_files.py` that `data_management.py` imports is not
under src/; per the spec an implicit-schema InputFile populates
`entityType`, `ignoreColumns`, `provenance` and `observationProperties`. -/
def ImplicitSchemaFile (entityType : Option String) (ignoreColumns : Option (List String))
    (provenance : String) (observationProperties : ObservationProperties) : InputFile :=
  ⟨entityType, ignoreColumns, provenance, none, none, some observationProperties⟩

/-- Modelled from the spec: `ExplicitSchemaFile` — same missing module; per
the spec an explicit-schema InputFile populates `ignoreColumns`,
`provenance`, `columnMappings` and the `variablePerRow` format. -/
def ExplicitSchemaFile (ignoreColumns : Option (List String)) (provenance : String)
    (columnMappings : ColumnMappings) : InputFile :=
  ⟨none, ignoreColumns, provenance, some DataFormat.variablePerRow,
   some columnMappings, none⟩

/-- Embedding of `add_implicit_schema_file` (data_management.py lines
421-470): run the data-map override guard, then evaluate
`ObservationProperties(**observationProperties)` — a `TypeError` when the
argument is `None` (the default) — then insert or replace the `InputFile`
entry unconditionally and store the payload only when one is provided. -/
def add_implicit_schema_file {Data : Type} (m : Manager Data)
    (file_name provenance : String) (data : Option Data) (entityType : Option String)
    (observationProperties : Option (List (String × String)))
    (ignoreColumns : Option (List String)) (override : Bool) :
    Except PyErr (Manager Data) :=
  match _data_override_check m file_name override with
  | .error e => .error e
  | .ok _ =>
    match observationProperties with
    | none => .error (.typeError "argument after ** must be a mapping, not NoneType")
    | some kw =>
      match opFromKwargs kw with
      | .error e => .error e
      | .ok op =>
        .ok { m with
          config := { m.config with inputFiles := (updateAssoc m.config.inputFiles
            file_name (ImplicitSchemaFile entityType ignoreColumns provenance op)) },
          data := (match data with
            | none => m.data
            | some d => updateAssoc m.data file_name d) }

/-- Embedding of `add_explicit_schema_file` (data_management.py lines
472-521): same structure, with `ColumnMappings(**columnMappings)` — a
`TypeError` when the argument is `None` (the default). -/
def add_explicit_schema_file {Data : Type} (m : Manager Data)
    (file_name provenance : String) (data : Option Data)
    (columnMappings : Option (List (String × String)))
    (ignoreColumns : Option (List String)) (override : Bool) :
    Except PyErr (Manager Data) :=
  match _data_override_check m file_name override with
  | .error e => .error e
  | .ok _ =>
    match columnMappings with
    | none => .error (.typeError "argument after ** must be a mapping, not NoneType")
    | some kw =>
      match cmFromKwargs kw with
      | .error e => .error e
      | .ok cm =>
        .ok { m with
          config := { m.config with inputFiles := (updateAssoc m.config.inputFiles
            file_name (ExplicitSchemaFile ignoreColumns provenance cm)) },
          data := (match data with
            | none => m.data
            | some d => updateAssoc m.data file_name d) }

/-- **C5**: with the data-map guard satisfied (no data registered for the
name, or `override` set) the claim requires the call to succeed, but both
methods raise a `TypeError` whenever the keyword dictionary
(`observationProperties` / `columnMappings`) is omitted, i.e. left at its
`None` default; when the dictionary *is* supplied (and valid), the
`InputFile` entry is inserted or replaced unconditionally — even when an
entry already exists and `override` is false — and the data payload is
stored only when one is provided. -/
theorem schema_file_c5 {Data : Type} (m : Manager Data) (fn prov : String)
    (dt : Option Data) (et : Option String) (ig : Option (List String)) (ov : Bool)
    (hguard : ((m.data.lookup fn).isSome && !ov) = false) :
    (add_implicit_schema_file m fn prov dt et none ig ov =
      .error (.typeError "argument after ** must be a mapping, not NoneType")) ∧
    (add_explicit_schema_file m fn prov dt none ig ov =
      .error (.typeError "argument after ** must be a mapping, not NoneType")) ∧
    (∀ kw op, opFromKwargs kw = .ok op →
      add_implicit_schema_file m fn prov dt et (some kw) ig ov =
        .ok { m with
          config := { m.config with inputFiles := (updateAssoc m.config.inputFiles
            fn (ImplicitSchemaFile et ig prov op)) },
          data := (match dt with
            | none => m.data
            | some d => updateAssoc m.data fn d) }) := by
  have hchk : _data_override_check m fn ov = .ok () := by
    simp [_data_override_check, hguard]
  refine ⟨?_, ?_, ?_⟩
  · simp [add_implicit_schema_file, hchk]
  · simp [add_explicit_schema_file, hchk]
  · intro kw op hop
    simp [add_implicit_schema_file, hchk, hop]

/-- **C5** witness: on a fresh manager (no data registered at all),
registering `exp.csv` without `columnMappings` raises the `TypeError`, even
though the claim says only the data-map guard can make the call fail. -/
theorem schema_file_c5_witness :
    ((([] : List (String × Nat)).lookup "exp.csv").isSome && !false) = false ∧
    add_explicit_schema_file
        (⟨⟨none, none, [], none, []⟩, [], []⟩ : Manager Nat)
        "exp.csv" "p1" none none none false =
      .error (.typeError "argument after ** must be a mapping, not NoneType") :=
  ⟨rfl, (schema_file_c5 (⟨⟨none, none, [], none, []⟩, [], []⟩ : Manager Nat)
    "exp.csv" "p1" none none none false rfl).2.1⟩

/-- Embedding of `add_variable_to_mcf` (data_management.py lines 242-291):
`_parse_kwargs_into_properties(locals())` evaluates
`props.update(additional_properties)`, a `TypeError` when the argument is
`None` (its default); otherwise the constructed StatVar node is handed to
`self._add_starvar_node(...)`, a method the class never defines, raising
`AttributeError`.  No mutation of the manager happens on any path, and no
further keyword argument can change this control flow (the node construction
they feed has no failing validator and its result is discarded). -/
def add_variable_to_mcf {Data : Type} (m : Manager Data) (Node name : String)
    (memberOf : Option String)
    (additional_properties : Option (List (String × String))) (override : Bool) :
    Except PyErr (Manager Data) :=
  match additional_properties with
  | none => .error (.typeError "NoneType object is not iterable")
  | some _ =>
    .error (.attributeError "CustomDataManager object has no attribute _add_starvar_node")

/-- Python `"pat" in s` for strings: contiguous-substring containment. -/
def isInfixL (pat : List Char) : List Char → Bool
  | [] => pat.isEmpty
  | c :: rest => pat.isPrefixOf (c :: rest) || isInfixL pat rest

/-- Embedding of `add_variable_group_to_mcf` (data_management.py lines
293-333): the same `locals()` parsing `TypeError`; then the
`StatVarGroupMCFNode` validators (`g/` containment for `Node` and
`specializationOf`, the `dcid:` stem for `specializationOf`) may raise; and
the surviving call `self._mcf_nodes.add(node, override=override)` raises
`TypeError` because `MCFNodes.add` accepts no `override` keyword.  Again no
path mutates the manager. -/
def add_variable_group_to_mcf {Data : Type} (m : Manager Data)
    (Node name specializationOf : String)
    (additional_properties : Option (List (String × String))) (override : Bool) :
    Except PyErr (Manager Data) :=
  match additional_properties with
  | none => .error (.typeError "NoneType object is not iterable")
  | some _ =>
    if !(isInfixL "g/".data Node.data) then
      .error (.valueError "field must contain g/")
    else if !(isInfixL "g/".data specializationOf.data) then
      .error (.valueError "field must contain g/")
    else if !("dcid:".data.isPrefixOf specializationOf.data) then
      .error (.valueError "specializationOf must start with dcid:")
    else
      .error (.typeError "add() got an unexpected keyword argument override")

/-- Embedding of `add_variables_to_mcf_from_csv` (data_management.py lines
335-364) after the CSV has been read and converted to nodes by
`csv_metadata_to_nodes` (file reading is outside the embedding): the loop
calls `self._mcf_nodes.add(node, override=override)`, which raises
`TypeError` on its first iteration — before any node is appended — and never
runs when the CSV yields no nodes. -/
def add_variables_to_mcf_from_rows {Data : Type} (m : Manager Data)
    (nodes : List MCFNode) (override : Bool) : Except PyErr (Manager Data) :=
  match nodes with
  | [] => .ok m
  | _ :: _ => .error (.typeError "add() got an unexpected keyword argument override")

/-- **C10** (amended).  `add_variable_to_mcf` and `add_variable_group_to_mcf`
raise on every input (the former via the undefined `_add_starvar_node` when
the keyword parsing survives, the latter via the `override` keyword that
`MCFNodes.add` does not accept); `add_variables_to_mcf_from_csv` raises the
same `TypeError` before appending anything whenever the CSV yields at least
one node, but is a silent no-op — not an error — when it yields none; on
every path the manager, and in particular its node collection, is
unchanged. -/
theorem mcf_add_methods_c10 {Data : Type} (m : Manager Data) (nd nm spec : String)
    (mo : Option String) (ap : Option (List (String × String))) (ov : Bool)
    (nodes : List MCFNode) :
    (∃ e, add_variable_to_mcf m nd nm mo ap ov = .error e) ∧
    (∃ e, add_variable_group_to_mcf m nd nm spec ap ov = .error e) ∧
    (nodes ≠ [] → ∃ e, add_variables_to_mcf_from_rows m nodes ov = .error e) ∧
    (∀ m2, add_variables_to_mcf_from_rows m nodes ov = .ok m2 → m2 = m) := by
  refine ⟨?_, ?_, ?_, ?_⟩
  · cases ap with
    | none => exact ⟨_, rfl⟩
    | some l => exact ⟨_, rfl⟩
  · cases ap with
    | none => exact ⟨_, rfl⟩
    | some l =>
      simp only [add_variable_group_to_mcf]
      split_ifs <;> exact ⟨_, rfl⟩
  · intro hne
    cases nodes with
    | nil => exact absurd rfl hne
    | cons a b => exact ⟨_, rfl⟩
  · intro m2 h
    cases nodes with
    | nil =>
      injection h with h2
      exact h2.symm
    | cons a b => cases h

/-- **C10** counterexample: a CSV yielding zero nodes makes
`add_variables_to_mcf_from_csv` return successfully with the manager
unchanged — it does not raise, contrary to the claim's "for every input". -/
theorem mcf_from_csv_c10_counterexample :
    add_variables_to_mcf_from_rows
        (⟨⟨none, none, [], none, []⟩, [], []⟩ : Manager Nat) [] false =
      .ok (⟨⟨none, none, [], none, []⟩, [], []⟩ : Manager Nat) ∧
    ∀ e, add_variables_to_mcf_from_rows
        (⟨⟨none, none, [], none, []⟩, [], []⟩ : Manager Nat) [] false ≠ .error e :=
  ⟨rfl, fun _ h => Except.noConfusion h⟩

/-- **C10** witness: the amended theorem at a concrete manager, with one
parsed CSV node. -/
theorem mcf_add_methods_c10_witness :
    (∃ e, add_variable_to_mcf (⟨⟨none, none, [], none, []⟩, [], []⟩ : Manager Nat)
      "dcid:v1" "V1" none none false = .error e) ∧
    (∃ e, add_variables_to_mcf_from_rows
      (⟨⟨none, none, [], none, []⟩, [], []⟩ : Manager Nat)
      [⟨"n1", "N", "dcid:T", []⟩] false = .error e) := by
  have h := mcf_add_methods_c10 (⟨⟨none, none, [], none, []⟩, [], []⟩ : Manager Nat)
    "dcid:v1" "V1" "dcid:g/s" none none false [⟨"n1", "N", "dcid:T", []⟩]
  exact ⟨h.1, h.2.2.1 (by decide)⟩
